import Mathlib

/-!
Verification development for the SLC payment bot (src/bot.py).

The bot keeps one JSON store with three tables: `users` (username to
membership record), `wallet_map` (wallet address to username) and `seen_tx`
(processed transaction identifiers). Three loops mutate it: the Solscan
payment scanner (`handle_new_payment` / `grant_access_to`), the Telegram
command loop (`/start` and `/myjoin` branches of `poll_telegram_updates`),
and the daily expiry sweep (`daily_expiry_check`).

Embedding conventions:
* Python dicts become association lists `List (String × _)` with dict-faithful
  operations: lookup returns the first (and in any reachable state only)
  binding, assignment replaces the first binding in place or appends.
* Timestamps (ISO strings produced by `datetime.utcnow().isoformat()`) become
  `Nat` seconds; `timedelta(days=30)` becomes the constant `TTL = 30 * 86400`.
  A stored timestamp string is always nonempty and parseable, so Python
  truthiness of a present timestamp is `Option.isSome` here.
* Network calls are inputs/outputs of the pure functions: the transaction
  detail fetched from Solscan is an argument, Telegram sends are reflected in
  returned flags or logs. `kick_from_chat` and `send_message` swallow every
  exception in the source, which the model renders as functions whose result
  (`Unit`) carries no success information.
* The results of Python string-to-number parsing (`int(amt)`,
  `int(float(amt) * 1_000_000_000)`) are part of the input data
  (`ParsedAmt`), since the source applies them to opaque upstream JSON values;
  likewise the memo substring test on `json.dumps(detail)` is the input bit
  `memoPresent`, and Python truthiness of each raw amount is the input bit
  `RawAmt.truthy`.
-/

namespace SLC

/-- Fixed receiving wallet, `WALLET` in the source. -/
def WALLET : String := "GFxQeqQBhgu4yLYLf7BFUBkRkhbfTnkAfwsrN9TEaTZv"

/-- `MIN_LAMPORTS = int(0.15 * 1_000_000_000)`. In IEEE double arithmetic
`0.15 * 1e9` rounds to exactly `150000000.0`, so the constant is 150000000. -/
def MIN_LAMPORTS : Int := 150000000

/-- 30 days in seconds, the fixed TTL (`timedelta(days=30)` in the source). -/
def TTL : Nat := 30 * 86400

/-- Static whitelist, `WHITELIST` in the source. -/
def WHITELIST : List String :=
  ["leopex1", "Degenetive", "SLCScannerBot", "Steez431", "cripplingdegen",
   "ARC", "MoneyMalicia"]

/-- ASCII lowercasing of one character (the whitelist and every username the
bot builds are ASCII, so this is Python `str.lower()` on the data at hand).
Spelled out on code points so that the kernel can evaluate it. -/
def lowerChar (c : Char) : Char :=
  if 'A' ≤ c ∧ c ≤ 'Z' then Char.ofNat (c.toNat + 32) else c

/-- Python `s.lower()` (ASCII range). -/
def pyLower (s : String) : String :=
  String.mk (s.toList.map lowerChar)

/-- Drop every leading at-sign, Python `s.lstrip("@")`. -/
def lstripAt (s : String) : String :=
  String.mk (s.toList.dropWhile (fun c => c == '@'))

/-- Python `s.startswith("@")`. -/
def startsWithAt (s : String) : Bool :=
  match s.toList with
  | [] => false
  | c :: _ => c == '@'

/-- `WL_SET = set(u.lower().lstrip("@") for u in WHITELIST)`. -/
def WL_SET : List String :=
  WHITELIST.map (fun u => lstripAt (pyLower u))

/-- `norm_username` from the source: empty input stays empty, otherwise
lowercase and strip leading at-signs. -/
def norm_username (u : String) : String :=
  if u = "" then "" else lstripAt (pyLower u)

/-- `is_whitelisted` from the source. -/
def is_whitelisted (username : String) : Bool :=
  WL_SET.contains (norm_username username)

/-- A membership record (a `users[uname]` dict). Every field can be absent. -/
structure UserRec where
  join : Option Nat
  last_paid : Option Nat
  wallet : Option String
  user_id : Option Nat
  deriving DecidableEq

/-- The record `{}` freshly produced by `setdefault(uname, {})`. -/
def emptyRec : UserRec :=
  { join := none, last_paid := none, wallet := none, user_id := none }

/-- The persistent store: the three top-level tables of the JSON file. -/
structure Store where
  users : List (String × UserRec)
  wallet_map : List (String × String)
  seen_tx : List String
  deriving DecidableEq

/-- Dict lookup `d.get(k)`: the value of the first binding of `k`. -/
def getU {α : Type} (l : List (String × α)) (k : String) : Option α :=
  (l.find? (fun p => p.1 == k)).map (fun p => p.2)

/-- Dict assignment `d[k] = v`: replace the first binding of `k` in place, or
append a new binding. -/
def setKey {α : Type} : List (String × α) → String → α → List (String × α)
  | [], k, v => [(k, v)]
  | p :: rest, k, v =>
      if p.1 == k then (k, v) :: rest else p :: setKey rest k v

/-- Dict removal `d.pop(k, None)`. Reachable stores bind each key once, so
removing every binding of `k` coincides with removing the single one. -/
def eraseKey {α : Type} (l : List (String × α)) (k : String) : List (String × α) :=
  l.filter (fun p => p.1 != k)

/-- `users.setdefault(k, {})`: the (possibly extended) table together with the
record now bound to `k`. -/
def setdefaultU (l : List (String × UserRec)) (k : String) :
    List (String × UserRec) × UserRec :=
  match getU l k with
  | some u => (l, u)
  | none => (l ++ [(k, emptyRec)], emptyRec)

/-- First truthy value of a chain `a or b or ...` of optional strings (Python
treats `None` and `""` as falsy). When every link is falsy the chain result is
only ever used under a truthiness guard, so it is collapsed to `none`. -/
def firstTruthyS : List (Option String) → Option String
  | [] => none
  | none :: rest => firstTruthyS rest
  | some s :: rest => if s = "" then firstTruthyS rest else some s

/-- Outcome of Python numeric parsing applied to a raw transfer amount:
`int(amt)` succeeds, or only `int(float(amt) * 1_000_000_000)` succeeds, or
both raise. These outcomes are input data (see module docstring). -/
inductive ParsedAmt where
  | asInt (n : Int)
  | asFloatLamports (n : Int)
  | unparsed
  deriving DecidableEq

/-- A raw amount value from the ledger JSON: its Python truthiness and its
parse outcome. -/
structure RawAmt where
  truthy : Bool
  parsed : ParsedAmt
  deriving DecidableEq

/-- First truthy value of a chain of optional raw amounts. -/
def firstTruthyA : List (Option RawAmt) → Option RawAmt
  | [] => none
  | none :: rest => firstTruthyA rest
  | some a :: rest => if a.truthy then some a else firstTruthyA rest

/-- One transfer item as the source reads it: three candidate destination
fields and three candidate amount fields, each possibly absent. `toField` is
the JSON key named to, which Lean reserves. -/
structure TransferItem where
  toField : Option String
  destination : Option String
  tokenAddress : Option String
  amount : Option RawAmt
  lamports : Option RawAmt
  value : Option RawAmt
  deriving DecidableEq

/-- `item.get("to") or item.get("destination") or item.get("tokenAddress")`. -/
def itemTo (it : TransferItem) : Option String :=
  firstTruthyS [it.toField, it.destination, it.tokenAddress]

/-- `item.get("amount") or item.get("lamports") or item.get("value")`. -/
def itemAmt (it : TransferItem) : Option RawAmt :=
  firstTruthyA [it.amount, it.lamports, it.value]

/-- Lamports a single item adds to the running sum: destination and amount
must be truthy, the destination must equal `WALLET` case-insensitively, and a
value that parses neither as int nor as float adds nothing (both `except`
arms fall through to `pass`). -/
def itemContribution (it : TransferItem) : Int :=
  match itemTo it, itemAmt it with
  | some t, some a =>
      if pyLower t = pyLower WALLET then
        match a.parsed with
        | .asInt n => n
        | .asFloatLamports n => n
        | .unparsed => 0
      else 0
  | _, _ => (0 : Int)

/-- Sum of contributions over one transfer list. -/
def sumItems (l : List TransferItem) : Int :=
  (l.map itemContribution).sum

/-- The transaction detail returned by `get_tx_detail`, restricted to the
fields `handle_new_payment` reads. `memoPresent` is the input bit for
the substring test on the serialized detail, and `accountKeys0` is
`detail["transaction"]["message"]["accountKeys"][0]` when that path yields a
string (absent path or a `None` entry collapse to `none`). -/
structure TxDetail where
  nativeTransfers : List TransferItem
  solTransfers : List TransferItem
  transfers : List TransferItem
  tokenTransfers : List TransferItem
  sol_transfer : List TransferItem
  memoPresent : Bool
  feePayer : Option String
  signer : Option String
  accountKeys0 : Option String
  deriving DecidableEq

/-- The summed lamports over the five transfer-record shapes, in the order the
source iterates them. -/
def sumLamports (d : TxDetail) : Int :=
  sumItems d.nativeTransfers + sumItems d.solTransfers + sumItems d.transfers
    + sumItems d.tokenTransfers + sumItems d.sol_transfer

/-- `detail.get("feePayer") or detail.get("signer") or ...accountKeys[0]`,
with the final truthiness guard folded in. -/
def resolveSigner (d : TxDetail) : Option String :=
  firstTruthyS [d.feePayer, d.signer, d.accountKeys0]

/-- A transaction summary from the account listing. -/
structure Tx where
  txHash : Option String
  signature : Option String
  deriving DecidableEq

/-- `tx.get("txHash") or tx.get("signature")` with the not-falsy guard. -/
def sigOf (tx : Tx) : Option String :=
  firstTruthyS [tx.txHash, tx.signature]

/-- Python `str.isalnum()` (ASCII restriction of it): nonempty and every
character alphanumeric. -/
def pyIsAlnum (s : String) : Bool :=
  !(s = "") && s.toList.all Char.isAlphanum

/-- The record key `grant_access_to` actually writes to: `username` itself if
it starts with an at-sign, else at-sign prepended if `username.isalnum()`,
else `username` unchanged. -/
def grantKey (username : String) : String :=
  if startsWithAt username then username
  else if pyIsAlnum username then String.mk ('@' :: username.toList)
  else username

/-- `grant_access_to(username, wallet_addr, signature)` restricted to its
store effect; welcome and invite messages are reported by the caller
(`handle_new_payment` returns `true` exactly when it runs this). -/
def grant_access_to (s : Store) (username wallet_addr : String) (now : Nat) :
    Store :=
  let uname := grantKey username
  let p := setdefaultU s.users uname
  let u := p.2
  let u1 := if u.join.isSome then u else { u with join := some now }
  let u2 := { u1 with last_paid := some now, wallet := some wallet_addr }
  { s with users := setKey p.1 uname u2 }

/-- `handle_new_payment(tx)`: the store transition together with whether a
grant (welcome plus invite) was issued. `detail` is the Solscan response for
the transaction and `now` the wall clock inside `grant_access_to`. -/
def handle_new_payment (s : Store) (tx : Tx) (detail : TxDetail) (now : Nat) :
    Store × Bool :=
  match sigOf tx with
  | none => (s, false)
  | some sig =>
    if s.seen_tx.contains sig then (s, false)
    else
      let s1 : Store := { s with seen_tx := s.seen_tx ++ [sig] }
      if MIN_LAMPORTS ≤ sumLamports detail ∧ detail.memoPresent = true then
        match resolveSigner detail with
        | none => (s1, false)
        | some signer =>
          match getU s1.wallet_map signer with
          | none => (s1, false)
          | some username =>
            if username = "" then (s1, false)
            else (grant_access_to s1 username signer now, true)
      else (s1, false)

/-- The username the Telegram loop derives for a sender: the display handle
with an at-sign when present and nonempty, otherwise the numeric id as a
string. -/
def telegramUname (handle : Option String) (uid : Nat) : String :=
  match handle with
  | some h => if h = "" then toString uid else String.mk ('@' :: h.toList)
  | none => toString uid

/-- The `/start <wallet>` branch of `poll_telegram_updates`. -/
def handle_start_with_wallet (s : Store) (uname : String) (uid : Nat)
    (w : String) (now : Nat) : Store :=
  let wm := setKey s.wallet_map w uname
  let p := setdefaultU s.users uname
  let u := p.2
  let u1 := if u.join.isSome then u else { u with join := some now }
  let u2 := { u1 with user_id := some uid, wallet := some w }
  { s with wallet_map := wm, users := setKey p.1 uname u2 }

/-- The bare `/start` branch of `poll_telegram_updates`. -/
def handle_start_no_wallet (s : Store) (uname : String) (uid : Nat)
    (now : Nat) : Store :=
  let p := setdefaultU s.users uname
  let u := p.2
  let u1 := if u.join.isSome then u else { u with join := some now }
  let u2 := { u1 with user_id := some uid }
  { s with users := setKey p.1 uname u2 }

/-- Reply of the `/myjoin` branch: either the register-first guidance or the
joined/last-paid/expires report, with `none` standing for the N/A parts. -/
inductive MyjoinReply where
  | registerFirst
  | status (join : Option Nat) (last : Option Nat) (expire : Option Nat)
  deriving DecidableEq

/-- The `/myjoin` branch of `poll_telegram_updates`. Expiry is last-paid plus
the TTL and stays N/A (`none`) when last-paid is absent. -/
def handle_myjoin (s : Store) (uname : String) : MyjoinReply :=
  match getU s.users uname with
  | none => .registerFirst
  | some info =>
      .status info.join info.last_paid (info.last_paid.map (fun t => t + TTL))

/-- The join timestamp currently recorded for key `k`, `none` when the record
is absent or has no join field. -/
def joinOf (s : Store) (k : String) : Option Nat :=
  (getU s.users k).bind (fun u => u.join)

/-- `last = info.get("last_paid") or info.get("join")` (present timestamps
are truthy). -/
def lastActive (u : UserRec) : Option Nat :=
  match u.last_paid with
  | some t => some t
  | none => u.join

/-- `kick_chat_member` wrapped in try/except pass: the caller observes `()`
whether or not the HTTP call succeeded. -/
def kick_from_chat (succeeded : Bool) : Unit :=
  let _ := succeeded; ()

/-- `send_message` wrapped in try/except pass, likewise. -/
def send_message (succeeded : Bool) : Unit :=
  let _ := succeeded; ()

/-- The revocation side effects for one expired record: when a user id is
stored, a kick and a notification are attempted (their success is observed by
nobody) and the id is appended to the kick log; without a stored id nothing
is attempted. -/
def kickLog (log : List Nat) (uid : Option Nat) (kickOk notifyOk : Bool) :
    List Nat :=
  match uid with
  | some u =>
      let _ := kick_from_chat kickOk
      let _ := send_message notifyOk
      log ++ [u]
  | none => log

/-- One iteration of the sweep over the snapshot `list(users.items())`,
accumulating the live store and the list of kicked user ids. -/
def sweepAux (now : Nat) (kickOk notifyOk : Bool) :
    List (String × UserRec) → Store → List Nat → Store × List Nat
  | [], acc, log => (acc, log)
  | p :: rest, acc, log =>
    if is_whitelisted p.1 then sweepAux now kickOk notifyOk rest acc log
    else
      match lastActive p.2 with
      | none => sweepAux now kickOk notifyOk rest acc log
      | some t =>
        if TTL < now - t then
          sweepAux now kickOk notifyOk rest
            { acc with
              users := eraseKey acc.users p.1,
              wallet_map := acc.wallet_map.filter (fun q => q.2 != p.1) }
            (kickLog log p.2.user_id kickOk notifyOk)
        else sweepAux now kickOk notifyOk rest acc log

/-- One run of the `daily_expiry_check` sweep body at time `now`. `kickOk` and
`notifyOk` say whether the kick and notification HTTP calls succeed; the
second component lists the user ids for which a kick was attempted.
Python compares `utcnow() - last_dt > timedelta(days=30)`; with truncated
`Nat` subtraction `now - t` a future `t` gives `0 > TTL = false`, the same
verdict as the negative timedelta. -/
def daily_expiry_check (s : Store) (now : Nat) (kickOk notifyOk : Bool) :
    Store × List Nat :=
  sweepAux now kickOk notifyOk s.users s []

/-! ### Concrete fixtures used by the witness theorems -/

/-- A transaction summary carrying only a `txHash`. -/
def fxTx : Tx := { txHash := some "T1", signature := none }

/-- A qualifying native transfer of exactly the minimum amount. -/
def fxItem : TransferItem :=
  { toField := some WALLET, destination := none, tokenAddress := none,
    amount := some { truthy := true, parsed := .asInt 150000000 },
    lamports := none, value := none }

/-- A transfer whose amount parses neither as int nor as float. -/
def fxBadItem : TransferItem :=
  { toField := some WALLET, destination := none, tokenAddress := none,
    amount := some { truthy := true, parsed := .unparsed },
    lamports := none, value := none }

/-- A qualifying transaction detail paid from wallet `W1`. -/
def fxDetail : TxDetail :=
  { nativeTransfers := [fxItem], solTransfers := [], transfers := [],
    tokenTransfers := [], sol_transfer := [], memoPresent := true,
    feePayer := some "W1", signer := none, accountKeys0 := none }

/-- A registered member bob who has never paid. -/
def fxRec : UserRec :=
  { join := some 5, last_paid := none, wallet := some "W1", user_id := some 77 }

/-- A store with bob registered for wallet `W1` and nothing seen yet. -/
def fxStore : Store :=
  { users := [("@bob", fxRec)], wallet_map := [("W1", "@bob")], seen_tx := [] }

/-- A store where both bob and a whitelisted user last paid at time 0. -/
def fxExpStore : Store :=
  { users :=
      [("@bob",
        { join := some 0, last_paid := some 0, wallet := some "W1",
          user_id := some 77 }),
       ("@Steez431",
        { join := some 0, last_paid := some 0, wallet := none,
          user_id := none })],
    wallet_map := [("W1", "@bob")], seen_tx := [] }

/-- A store whose only member registered under a bare numeric-id key. -/
def fxNumStore : Store :=
  { users :=
      [("12345",
        { join := some 5, last_paid := none, wallet := some "W1",
          user_id := some 12345 })],
    wallet_map := [("W1", "12345")], seen_tx := [] }

/-! ### Association-list lemmas -/

theorem getU_nil {α : Type} (k : String) : getU ([] : List (String × α)) k = none := rfl

theorem getU_cons {α : Type} (p : String × α) (l : List (String × α)) (k : String) :
    getU (p :: l) k = if p.1 = k then some p.2 else getU l k := by
  by_cases h : p.1 = k
  · rw [getU, List.find?_cons_of_pos _ (by simp [h]), if_pos h]
    rfl
  · rw [getU, List.find?_cons_of_neg _ (by simp [h]), if_neg h]
    rfl

theorem setKey_nil {α : Type} (k : String) (v : α) :
    setKey ([] : List (String × α)) k v = [(k, v)] := rfl

theorem setKey_cons {α : Type} (p : String × α) (l : List (String × α))
    (k : String) (v : α) :
    setKey (p :: l) k v = if p.1 = k then (k, v) :: l else p :: setKey l k v := by
  by_cases h : p.1 = k
  · rw [setKey, if_pos (by simp [h] : (p.1 == k) = true), if_pos h]
  · rw [setKey, if_neg (by simp [h] : ¬ (p.1 == k) = true), if_neg h]

theorem eraseKey_nil {α : Type} (k : String) :
    eraseKey ([] : List (String × α)) k = [] := rfl

theorem eraseKey_cons {α : Type} (p : String × α) (l : List (String × α))
    (k : String) :
    eraseKey (p :: l) k = if p.1 = k then eraseKey l k else p :: eraseKey l k := by
  by_cases h : p.1 = k <;> simp [eraseKey, List.filter_cons, h]

theorem getU_append {α : Type} (l1 l2 : List (String × α)) (k : String) :
    getU (l1 ++ l2) k = ((getU l1 k).rec (getU l2 k) (fun v => some v)) := by
  induction l1 with
  | nil => simp [getU_nil]
  | cons p rest ih =>
      by_cases h : p.1 = k <;> simp [getU_cons, h, ih]

theorem getU_append_single_ne {α : Type} (l : List (String × α)) (k k2 : String)
    (v : α) (h : k2 ≠ k) : getU (l ++ [(k2, v)]) k = getU l k := by
  rw [getU_append]
  cases hg : getU l k <;> simp [getU_cons, getU_nil, h]

theorem mem_of_getU {α : Type} {l : List (String × α)} {k : String} {v : α}
    (h : getU l k = some v) : (k, v) ∈ l := by
  induction l with
  | nil => simp [getU_nil] at h
  | cons p rest ih =>
      rw [getU_cons] at h
      by_cases hk : p.1 = k
      · rw [if_pos hk] at h
        injection h with h2
        have hp : p = (k, v) := by
          calc p = (p.1, p.2) := rfl
            _ = (k, v) := by rw [hk, h2]
        rw [← hp]
        exact List.mem_cons_self p rest
      · rw [if_neg hk] at h
        exact List.mem_cons_of_mem _ (ih h)

theorem getU_eq_none_iff {α : Type} (l : List (String × α)) (k : String) :
    getU l k = none ↔ ∀ p ∈ l, p.1 ≠ k := by
  induction l with
  | nil => simp [getU_nil]
  | cons p rest ih =>
      by_cases h : p.1 = k <;> simp [getU_cons, h, ih]

theorem getU_setKey_self {α : Type} (l : List (String × α)) (k : String) (v : α) :
    getU (setKey l k v) k = some v := by
  induction l with
  | nil => rw [setKey_nil, getU_cons, if_pos rfl]
  | cons p rest ih =>
      rw [setKey_cons]
      by_cases h : p.1 = k
      · rw [if_pos h, getU_cons, if_pos rfl]
      · rw [if_neg h, getU_cons, if_neg h, ih]

theorem getU_setKey_ne {α : Type} (l : List (String × α)) (k k2 : String) (v : α)
    (h : k2 ≠ k) : getU (setKey l k2 v) k = getU l k := by
  induction l with
  | nil => rw [setKey_nil, getU_cons, if_neg h]
  | cons p rest ih =>
      rw [setKey_cons]
      by_cases hp : p.1 = k2
      · have hpk : ¬ p.1 = k := by rw [hp]; exact h
        rw [if_pos hp, getU_cons, if_neg h, getU_cons, if_neg hpk]
      · rw [if_neg hp, getU_cons, getU_cons, ih]

theorem getU_filter_none {α : Type} (l : List (String × α)) (k : String)
    (q : String × α → Bool) (h : getU l k = none) : getU (l.filter q) k = none := by
  rw [getU_eq_none_iff] at h ⊢
  intro p hp
  exact h p (List.mem_of_mem_filter hp)

theorem getU_eraseKey_self {α : Type} (l : List (String × α)) (k : String) :
    getU (eraseKey l k) k = none := by
  rw [getU_eq_none_iff]
  intro p hp
  have := List.of_mem_filter hp
  simpa using this

theorem getU_eraseKey_none {α : Type} (l : List (String × α)) (k k2 : String)
    (h : getU l k = none) : getU (eraseKey l k2) k = none :=
  getU_filter_none l k _ h

theorem getU_eraseKey_ne {α : Type} (l : List (String × α)) (k k2 : String)
    (h : k ≠ k2) : getU (eraseKey l k2) k = getU l k := by
  induction l with
  | nil => rfl
  | cons p rest ih =>
      rw [eraseKey_cons]
      by_cases hp : p.1 = k2
      · have hpk : ¬ p.1 = k := by rw [hp]; exact fun hh => h hh.symm
        rw [if_pos hp, getU_cons, if_neg hpk, ih]
      · rw [if_neg hp, getU_cons, getU_cons, ih]

/-! ### Payment-handler lemmas -/

theorem contains_false_of_not_mem (l : List String) (a : String) (h : a ∉ l) :
    l.contains a = false := by
  simpa using h

theorem grant_seen_tx (s : Store) (u w : String) (n : Nat) :
    (grant_access_to s u w n).seen_tx = s.seen_tx := rfl

theorem grant_wallet_map (s : Store) (u w : String) (n : Nat) :
    (grant_access_to s u w n).wallet_map = s.wallet_map := rfl

theorem handle_no_sig (s : Store) (tx : Tx) (d : TxDetail) (n : Nat)
    (h : sigOf tx = none) : handle_new_payment s tx d n = (s, false) := by
  simp only [handle_new_payment, h]

theorem handle_of_seen (s : Store) (tx : Tx) (d : TxDetail) (n : Nat) (sig : String)
    (hsig : sigOf tx = some sig) (hc : s.seen_tx.contains sig = true) :
    handle_new_payment s tx d n = (s, false) := by
  simp only [handle_new_payment, hsig, hc, if_true]

theorem handle_seen_tx (s : Store) (tx : Tx) (d : TxDetail) (n : Nat) (sig : String)
    (hsig : sigOf tx = some sig) (hc : s.seen_tx.contains sig = false) :
    (handle_new_payment s tx d n).1.seen_tx = s.seen_tx ++ [sig] := by
  simp only [handle_new_payment, hsig, hc, Bool.false_eq_true, if_false]
  repeat' split
  all_goals rfl

/-- Claim C1: payment processing is idempotent per transaction identifier.
Running the payment handler a second time on the same transaction, whatever
detail the ledger returns and at whatever wall-clock time, leaves the store
produced by the first run unchanged in every component and issues no second
grant (no welcome message, no second last_paid update). -/
theorem C1_payment_idempotent (s : Store) (tx : Tx) (d1 d2 : TxDetail)
    (n1 n2 : Nat) :
    handle_new_payment (handle_new_payment s tx d1 n1).1 tx d2 n2
      = ((handle_new_payment s tx d1 n1).1, false) := by
  cases hsig : sigOf tx with
  | none =>
      rw [handle_no_sig s tx d1 n1 hsig]
      exact handle_no_sig s tx d2 n2 hsig
  | some sig =>
      by_cases hc : s.seen_tx.contains sig = true
      · rw [handle_of_seen s tx d1 n1 sig hsig hc]
        exact handle_of_seen s tx d2 n2 sig hsig hc
      · have hc2 : s.seen_tx.contains sig = false := by
          cases h2 : s.seen_tx.contains sig
          · rfl
          · exact absurd h2 hc
        apply handle_of_seen _ _ _ _ _ hsig
        rw [handle_seen_tx s tx d1 n1 sig hsig hc2]
        simp

/-- Claim C4: a not-yet-seen transaction identifier is recorded in
SeenTransactionSet regardless of what the amount/memo/grant steps do with the
fetched detail (first conjunct, quantified over every detail and time), so
the final state always contains the identifier; consequently any subsequent
processing of the same transaction is a complete no-op and the transaction is
never retried (second conjunct). -/
theorem C4_mark_seen_first (s : Store) (tx : Tx) (d : TxDetail) (now : Nat)
    (sig : String) (hsig : sigOf tx = some sig) (hnew : sig ∉ s.seen_tx) :
    (∀ d2 n2, (handle_new_payment s tx d2 n2).1.seen_tx = s.seen_tx ++ [sig])
  ∧ (∀ d2 n2, handle_new_payment (handle_new_payment s tx d now).1 tx d2 n2
      = ((handle_new_payment s tx d now).1, false)) := by
  have hc : s.seen_tx.contains sig = false := contains_false_of_not_mem _ _ hnew
  refine ⟨fun d2 n2 => handle_seen_tx s tx d2 n2 sig hsig hc, fun d2 n2 => ?_⟩
  apply handle_of_seen _ _ _ _ _ hsig
  rw [handle_seen_tx s tx d now sig hsig hc]
  simp

/-! ### Sweep lemmas -/

theorem sweepAux_users_absent (now : Nat) (b1 b2 : Bool)
    (l : List (String × UserRec)) (acc : Store) (log : List Nat) (k : String)
    (h : getU acc.users k = none) :
    getU (sweepAux now b1 b2 l acc log).1.users k = none := by
  induction l generalizing acc log with
  | nil => exact h
  | cons p rest ih =>
      simp only [sweepAux]
      split
      · exact ih _ _ h
      · split
        · exact ih _ _ h
        · split
          · exact ih _ _ (getU_eraseKey_none _ _ _ h)
          · exact ih _ _ h

theorem sweepAux_wallet_absent (now : Nat) (b1 b2 : Bool)
    (l : List (String × UserRec)) (acc : Store) (log : List Nat) (k : String)
    (h : ∀ q ∈ acc.wallet_map, ¬ q.2 = k) :
    ∀ q ∈ (sweepAux now b1 b2 l acc log).1.wallet_map, ¬ q.2 = k := by
  induction l generalizing acc log with
  | nil => exact h
  | cons p rest ih =>
      simp only [sweepAux]
      split
      · exact ih _ _ h
      · split
        · exact ih _ _ h
        · split
          · exact ih _ _ (fun q hq => h q (List.mem_of_mem_filter hq))
          · exact ih _ _ h

theorem sweepAux_removes (now : Nat) (b1 b2 : Bool)
    (l : List (String × UserRec)) (acc : Store) (log : List Nat)
    (uname : String) (info : UserRec) (t : Nat)
    (hmem : (uname, info) ∈ l) (hwl : is_whitelisted uname = false)
    (hla : lastActive info = some t) (hexp : TTL < now - t) :
    getU (sweepAux now b1 b2 l acc log).1.users uname = none
  ∧ ∀ q ∈ (sweepAux now b1 b2 l acc log).1.wallet_map, ¬ q.2 = uname := by
  induction l generalizing acc log with
  | nil => cases hmem
  | cons p rest ih =>
      rcases List.mem_cons.mp hmem with heq | hmem2
      · rw [← heq]
        simp only [sweepAux, hwl, Bool.false_eq_true, if_false, hla, hexp,
          if_true]
        constructor
        · exact sweepAux_users_absent _ _ _ _ _ _ _ (getU_eraseKey_self _ _)
        · refine sweepAux_wallet_absent _ _ _ _ _ _ _ (fun q hq => ?_)
          have := List.of_mem_filter hq
          simpa using this
      · simp only [sweepAux]
        split
        · exact ih _ _ hmem2
        · split
          · exact ih _ _ hmem2
          · split
            · exact ih _ _ hmem2
            · exact ih _ _ hmem2

theorem sweepAux_whitelisted (now : Nat) (b1 b2 : Bool)
    (l : List (String × UserRec)) (acc : Store) (log : List Nat) (k : String)
    (hk : is_whitelisted k = true) :
    getU (sweepAux now b1 b2 l acc log).1.users k = getU acc.users k := by
  induction l generalizing acc log with
  | nil => rfl
  | cons p rest ih =>
      simp only [sweepAux]
      split
      · exact ih _ _
      · rename_i hw
        split
        · exact ih _ _
        · split
          · rw [ih _ _]
            have hne : k ≠ p.1 := by
              intro he
              rw [← he, hk] at hw
              exact hw rfl
            exact getU_eraseKey_ne _ _ _ hne
          · exact ih _ _

theorem kickLog_oracle (log : List Nat) (uid : Option Nat) (b1 b2 b3 b4 : Bool) :
    kickLog log uid b1 b2 = kickLog log uid b3 b4 := by
  cases uid <;> rfl

theorem sweepAux_oracle (now : Nat) (b1 b2 b3 b4 : Bool)
    (l : List (String × UserRec)) (acc : Store) (log : List Nat) :
    sweepAux now b1 b2 l acc log = sweepAux now b3 b4 l acc log := by
  induction l generalizing acc log with
  | nil => rfl
  | cons p rest ih =>
      simp only [sweepAux]
      split
      · exact ih _ _
      · split
        · exact ih _ _
        · split
          · rw [kickLog_oracle log p.2.user_id b1 b2 b3 b4]
            exact ih _ _
          · exact ih _ _

/-- Claim C2: TTL correctness of the daily sweep. For a record bound to a
non-whitelisted username whose last activity (last_paid, else join) lies more
than the 30-day TTL before the sweep time, the sweep deletes the record and
every wallet-map entry whose value is that username; a record bound to a
whitelisted username survives every sweep unchanged, regardless of elapsed
time. -/
theorem C2_ttl_sweep (s : Store) (now : Nat) (b1 b2 : Bool) (uname : String)
    (info : UserRec) (h : getU s.users uname = some info) :
    (is_whitelisted uname = false →
      ∀ t, lastActive info = some t → TTL < now - t →
        getU (daily_expiry_check s now b1 b2).1.users uname = none
      ∧ ∀ q ∈ (daily_expiry_check s now b1 b2).1.wallet_map, ¬ q.2 = uname)
  ∧ (is_whitelisted uname = true →
      getU (daily_expiry_check s now b1 b2).1.users uname = some info) := by
  constructor
  · intro hwl t hla hexp
    exact sweepAux_removes now b1 b2 s.users s [] uname info t
      (mem_of_getU h) hwl hla hexp
  · intro hwl
    rw [daily_expiry_check, sweepAux_whitelisted now b1 b2 s.users s [] uname hwl]
    exact h

/-- Witness for C2: at time `2592001` the sweep deletes bob, who last paid at
time 0 and is not whitelisted, together with his wallet-map entry, while the
whitelisted member with the same timestamps is kept. -/
theorem C2_ttl_sweep_witness :
    (getU (daily_expiry_check fxExpStore 2592001 true true).1.users "@bob" = none
      ∧ ∀ q ∈ (daily_expiry_check fxExpStore 2592001 true true).1.wallet_map,
          ¬ q.2 = "@bob")
  ∧ getU (daily_expiry_check fxExpStore 2592001 true true).1.users "@Steez431"
      = some { join := some 0, last_paid := some 0, wallet := none,
               user_id := none } :=
  ⟨(C2_ttl_sweep fxExpStore 2592001 true true "@bob"
      { join := some 0, last_paid := some 0, wallet := some "W1",
        user_id := some 77 } (by decide)).1 (by decide) 0 (by decide)
      (by decide),
   (C2_ttl_sweep fxExpStore 2592001 true true "@Steez431"
      { join := some 0, last_paid := some 0, wallet := none,
        user_id := none } (by decide)).2 (by decide)⟩

/-- Claim C6: revocation of an expired, non-whitelisted record is
unconditional. The post-sweep store does not depend on whether the kick or
the notification HTTP call succeeded (first conjunct, the store is the same
for any combination of outcomes), and the record and its wallet-map entries
are deleted for an arbitrary record value, in particular whether or not a
platform user id was ever stored in it (the record value `info` is
universally quantified and its `user_id` field is unconstrained). -/
theorem C6_unconditional_revoke (s : Store) (now : Nat) (b1 b2 b3 b4 : Bool)
    (uname : String) (info : UserRec) (t : Nat)
    (h : getU s.users uname = some info) (hwl : is_whitelisted uname = false)
    (hla : lastActive info = some t) (hexp : TTL < now - t) :
    (daily_expiry_check s now b1 b2).1 = (daily_expiry_check s now b3 b4).1
  ∧ getU (daily_expiry_check s now b1 b2).1.users uname = none
  ∧ ∀ q ∈ (daily_expiry_check s now b1 b2).1.wallet_map, ¬ q.2 = uname := by
  refine ⟨?_, sweepAux_removes now b1 b2 s.users s [] uname info t
    (mem_of_getU h) hwl hla hexp⟩
  rw [daily_expiry_check, daily_expiry_check,
    sweepAux_oracle now b1 b2 b3 b4 s.users s []]

/-- Witness for C6: bob, expired with a stored user id, is removed and the
resulting store is the same whether the kick and notification succeed (true,
true) or both fail (false, false). -/
theorem C6_unconditional_revoke_witness :
    (daily_expiry_check fxExpStore 2592001 true true).1
        = (daily_expiry_check fxExpStore 2592001 false false).1
  ∧ getU (daily_expiry_check fxExpStore 2592001 true true).1.users "@bob" = none
  ∧ ∀ q ∈ (daily_expiry_check fxExpStore 2592001 true true).1.wallet_map,
      ¬ q.2 = "@bob" :=
  C6_unconditional_revoke fxExpStore 2592001 true true false false "@bob"
    { join := some 0, last_paid := some 0, wallet := some "W1",
      user_id := some 77 } 0 (by decide) (by decide) (by decide) (by decide)

/-- Witness for C4 at a concrete store, transaction and detail. -/
theorem C4_mark_seen_first_witness :
    (handle_new_payment fxStore fxTx fxDetail 100).1.seen_tx
        = fxStore.seen_tx ++ ["T1"]
  ∧ handle_new_payment (handle_new_payment fxStore fxTx fxDetail 100).1
        fxTx fxDetail 200
      = ((handle_new_payment fxStore fxTx fxDetail 100).1, false) :=
  ⟨(C4_mark_seen_first fxStore fxTx fxDetail 100 "T1" (by decide)
      (by decide)).1 fxDetail 100,
   (C4_mark_seen_first fxStore fxTx fxDetail 100 "T1" (by decide)
      (by decide)).2 fxDetail 200⟩

/-- Claim C3: for a not-yet-seen transaction a grant is issued if and only if
the summed transfer amount to the receiving wallet reaches `MIN_LAMPORTS`
(0.15 SOL), the memo marker occurs in the serialized detail, and the resolved
fee-payer (or fallback signer / first account key) is a key of the wallet
map. When the payer resolves but is not a wallet-map key, the transaction is
still marked seen and nothing but `seen_tx` changes. The hypothesis `hwm`
states the reachable-store invariant that wallet-map values (usernames) are
nonempty, which the source guarantees because every stored username is
either an at-prefixed handle or the decimal user id. -/
theorem C3_grant_condition (s : Store) (tx : Tx) (d : TxDetail) (now : Nat)
    (sig : String) (hsig : sigOf tx = some sig) (hnew : sig ∉ s.seen_tx)
    (hwm : ∀ q ∈ s.wallet_map, ¬ q.2 = "") :
    ((handle_new_payment s tx d now).2 = true ↔
      MIN_LAMPORTS ≤ sumLamports d ∧ d.memoPresent = true ∧
        ∃ payer, resolveSigner d = some payer
          ∧ (getU s.wallet_map payer).isSome = true)
  ∧ (∀ payer, resolveSigner d = some payer → getU s.wallet_map payer = none →
      handle_new_payment s tx d now
        = ({ s with seen_tx := s.seen_tx ++ [sig] }, false)) := by
  have hc : s.seen_tx.contains sig = false := contains_false_of_not_mem _ _ hnew
  constructor
  · simp only [handle_new_payment, hsig, hc, Bool.false_eq_true, if_false]
    by_cases hcond : MIN_LAMPORTS ≤ sumLamports d ∧ d.memoPresent = true
    · rw [if_pos hcond]
      cases hsg : resolveSigner d with
      | none => simp [hcond, hsg]
      | some payer =>
          cases hget : getU s.wallet_map payer with
          | none => simp [hcond, hsg, hget]
          | some username =>
              have hne : ¬ username = "" :=
                hwm (payer, username) (mem_of_getU hget)
              simp [hcond, hget, hne]
    · rw [if_neg hcond]
      constructor
      · intro h
        exact absurd h (by simp)
      · intro h
        exact absurd ⟨h.1, h.2.1⟩ hcond
  · intro payer hpayer hget
    simp only [handle_new_payment, hsig, hc, Bool.false_eq_true, if_false,
      hpayer, hget]
    split <;> rfl

/-- Witness for C3: the qualifying detail `fxDetail` paid from the registered
wallet `W1` triggers a grant, as the iff instantiates. -/
theorem C3_grant_condition_witness :
    ((handle_new_payment fxStore fxTx fxDetail 100).2 = true ↔
      MIN_LAMPORTS ≤ sumLamports fxDetail ∧ fxDetail.memoPresent = true ∧
        ∃ payer, resolveSigner fxDetail = some payer
          ∧ (getU fxStore.wallet_map payer).isSome = true)
  ∧ (∀ payer, resolveSigner fxDetail = some payer →
        getU fxStore.wallet_map payer = none →
      handle_new_payment fxStore fxTx fxDetail 100
        = ({ fxStore with seen_tx := fxStore.seen_tx ++ ["T1"] }, false)) :=
  C3_grant_condition fxStore fxTx fxDetail 100 "T1" (by decide) (by decide)
    (by decide)

/-- Claim C8: the amount-summing step is total over malformed transfer items.
An item with no (truthy) destination field, no (truthy) amount field, or an
amount value that parses neither as an integer nor as a float contributes
exactly zero, so dropping such an item from any transfer list leaves the sum
unchanged and the transaction is never failed on its account. -/
theorem C8_malformed_amount_zero (it : TransferItem)
    (h : itemTo it = none ∨ itemAmt it = none ∨
      ∃ a, itemAmt it = some a ∧ a.parsed = ParsedAmt.unparsed) :
    itemContribution it = 0
  ∧ ∀ l1 l2, sumItems (l1 ++ it :: l2) = sumItems (l1 ++ l2) := by
  have hz : itemContribution it = 0 := by
    rcases h with h1 | h2 | ⟨a, ha, hp⟩
    · rw [itemContribution, h1]
    · rw [itemContribution, h2]
      cases itemTo it <;> rfl
    · rw [itemContribution, ha]
      cases itemTo it with
      | none => rfl
      | some t => simp [hp]
  refine ⟨hz, fun l1 l2 => ?_⟩
  simp [sumItems, hz]

/-- Witness for C8: a transfer addressed to the receiving wallet whose amount
parses neither way contributes zero and drops out of the sum. -/
theorem C8_malformed_amount_zero_witness :
    itemContribution fxBadItem = 0
  ∧ sumItems ([fxItem] ++ fxBadItem :: []) = sumItems ([fxItem] ++ []) :=
  ⟨(C8_malformed_amount_zero fxBadItem (by decide)).1,
   (C8_malformed_amount_zero fxBadItem (by decide)).2 [fxItem] []⟩


/-! ### Registration and grant lemmas -/

theorem getU_setdefault_ne (l : List (String × UserRec)) (k2 k : String)
    (h : k2 ≠ k) : getU (setdefaultU l k2).1 k = getU l k := by
  cases hg : getU l k2 with
  | none =>
      rw [setdefaultU, hg]
      exact getU_append_single_ne l k k2 emptyRec h
  | some u => rw [setdefaultU, hg]

/-- The shared upsert shape of `grant_access_to` and both `/start` branches:
look the key up with `setdefault`, transform the record, write it back. Any
transform `g` that preserves a present join timestamp preserves `joinOf` at
every key. -/
theorem joinOf_setKey_setdefault (l : List (String × UserRec))
    (uname k : String) (j : Nat) (g : UserRec → UserRec)
    (hg : ∀ u, u.join = some j → (g u).join = some j)
    (hj : (getU l k).bind (fun u => u.join) = some j) :
    (getU (setKey (setdefaultU l uname).1 uname
        (g (setdefaultU l uname).2)) k).bind (fun u => u.join) = some j := by
  obtain ⟨u0, hu0, hju⟩ : ∃ u0, getU l k = some u0 ∧ u0.join = some j := by
    cases hg0 : getU l k with
    | none => rw [hg0] at hj; cases hj
    | some u0 =>
        rw [hg0] at hj
        exact ⟨u0, rfl, hj⟩
  by_cases hk : uname = k
  · subst hk
    have hsd : setdefaultU l uname = (l, u0) := by rw [setdefaultU, hu0]
    rw [hsd, getU_setKey_self]
    exact hg u0 hju
  · rw [getU_setKey_ne _ _ _ _ hk, getU_setdefault_ne l uname k hk, hu0]
    exact hju

/-- Claim C5: the join timestamp is monotone. Once a record holds a join
timestamp, no later `/start` registration (with or without a wallet
argument) and no later grant, for any target username, ever changes it: each
of these operations writes the join field only when it is absent. -/
theorem C5_join_monotonic (s : Store) (k : String) (j : Nat)
    (hj : joinOf s k = some j) :
    (∀ uname uid w now,
        joinOf (handle_start_with_wallet s uname uid w now) k = some j)
  ∧ (∀ uname uid now,
        joinOf (handle_start_no_wallet s uname uid now) k = some j)
  ∧ (∀ u w now, joinOf (grant_access_to s u w now) k = some j) := by
  refine ⟨fun uname uid w now => ?_, fun uname uid now => ?_,
    fun u w now => ?_⟩
  · exact joinOf_setKey_setdefault s.users uname k j
      (fun u0 =>
        { (if u0.join.isSome then u0 else { u0 with join := some now }) with
          user_id := some uid, wallet := some w })
      (fun u0 hu => by simp [hu]) hj
  · exact joinOf_setKey_setdefault s.users uname k j
      (fun u0 =>
        { (if u0.join.isSome then u0 else { u0 with join := some now }) with
          user_id := some uid })
      (fun u0 hu => by simp [hu]) hj
  · exact joinOf_setKey_setdefault s.users (grantKey u) k j
      (fun u0 =>
        { (if u0.join.isSome then u0 else { u0 with join := some now }) with
          last_paid := some now, wallet := some w })
      (fun u0 hu => by simp [hu]) hj

/-- Witness for C5: bob joined at time 5; a re-registration with a new
wallet, a bare re-registration and a grant all leave the join at 5. -/
theorem C5_join_monotonic_witness :
    joinOf (handle_start_with_wallet fxStore "@bob" 77 "W2" 50) "@bob" = some 5
  ∧ joinOf (handle_start_no_wallet fxStore "@bob" 77 50) "@bob" = some 5
  ∧ joinOf (grant_access_to fxStore "@bob" "W1" 60) "@bob" = some 5 :=
  ⟨(C5_join_monotonic fxStore "@bob" 5 (by decide)).1 "@bob" 77 "W2" 50,
   (C5_join_monotonic fxStore "@bob" 5 (by decide)).2.1 "@bob" 77 50,
   (C5_join_monotonic fxStore "@bob" 5 (by decide)).2.2 "@bob" "W1" 60⟩

/-- Claim C7: the status query replies register-first for an unknown
username; for an existing record it reports the join time, the last-paid
time and the expiry last-paid plus the 30-day TTL, with the expiry not
available (`none`) exactly when last-paid was never set. -/
theorem C7_myjoin_report (s : Store) (uname : String) :
    (getU s.users uname = none →
        handle_myjoin s uname = MyjoinReply.registerFirst)
  ∧ (∀ info, getU s.users uname = some info → info.last_paid = none →
        handle_myjoin s uname = MyjoinReply.status info.join none none)
  ∧ (∀ info t, getU s.users uname = some info → info.last_paid = some t →
        handle_myjoin s uname
          = MyjoinReply.status info.join (some t) (some (t + TTL))) := by
  refine ⟨fun h => ?_, fun info h hl => ?_, fun info t h hl => ?_⟩
  · rw [handle_myjoin, h]
  · rw [handle_myjoin, h]
    simp [hl]
  · rw [handle_myjoin, h]
    simp [hl]

/-- Witness for C7: an unknown user is told to register; bob, registered but
never paid, gets expiry not available; an expired-store bob with last-paid 0
gets expiry 0 + TTL. -/
theorem C7_myjoin_report_witness :
    handle_myjoin fxStore "@alice" = MyjoinReply.registerFirst
  ∧ handle_myjoin fxStore "@bob" = MyjoinReply.status (some 5) none none
  ∧ handle_myjoin fxExpStore "@bob"
      = MyjoinReply.status (some 0) (some 0) (some (0 + TTL)) :=
  ⟨(C7_myjoin_report fxStore "@alice").1 (by decide),
   (C7_myjoin_report fxStore "@bob").2.1 fxRec (by decide) (by decide),
   (C7_myjoin_report fxExpStore "@bob").2.2
     { join := some 0, last_paid := some 0, wallet := some "W1",
       user_id := some 77 } 0 (by decide) (by decide)⟩

/-- Claim C9: re-registering an already-registered username with a different
wallet address maps the new address to the username, updates the record
wallet field and user id while keeping the join timestamp, and leaves the
stale forward entry for the old wallet in place. -/
theorem C9_wallet_remap (s : Store) (uname : String) (uid : Nat)
    (w1 w2 : String) (now : Nat) (info : UserRec) (j : Nat)
    (h1 : getU s.wallet_map w1 = some uname) (hne : w1 ≠ w2)
    (hrec : getU s.users uname = some info) (hj : info.join = some j) :
    getU (handle_start_with_wallet s uname uid w2 now).wallet_map w2
        = some uname
  ∧ getU (handle_start_with_wallet s uname uid w2 now).wallet_map w1
        = some uname
  ∧ getU (handle_start_with_wallet s uname uid w2 now).users uname
        = some { info with user_id := some uid, wallet := some w2 } := by
  have hsd : setdefaultU s.users uname = (s.users, info) := by
    rw [setdefaultU, hrec]
  refine ⟨?_, ?_, ?_⟩
  · exact getU_setKey_self s.wallet_map w2 uname
  · rw [show (handle_start_with_wallet s uname uid w2 now).wallet_map
        = setKey s.wallet_map w2 uname from rfl,
      getU_setKey_ne s.wallet_map w1 w2 uname (Ne.symm hne)]
    exact h1
  · simp only [handle_start_with_wallet, hsd]
    rw [getU_setKey_self]
    simp [hj]

/-- Witness for C9: bob, registered for `W1`, re-registers with `W2`; both
wallet-map entries point at bob and his record keeps join 5 with the new
wallet. -/
theorem C9_wallet_remap_witness :
    getU (handle_start_with_wallet fxStore "@bob" 77 "W2" 50).wallet_map "W2"
        = some "@bob"
  ∧ getU (handle_start_with_wallet fxStore "@bob" 77 "W2" 50).wallet_map "W1"
        = some "@bob"
  ∧ getU (handle_start_with_wallet fxStore "@bob" 77 "W2" 50).users "@bob"
        = some { fxRec with user_id := some 77, wallet := some "W2" } :=
  C9_wallet_remap fxStore "@bob" 77 "W1" "W2" 50 fxRec 5 (by decide)
    (by decide) (by decide) (by decide)

/-- Claim C10 (implicit): `grant_access_to` does not use the wallet-map
username verbatim as the record key. A username that does not start with an
at-sign and is purely alphanumeric — such as the decimal user-id string
stored for senders without a display handle — is rewritten to at-sign plus
username, so the grant lands in a second, distinct record whose user id is
unset, while the registration record (and in particular its unset last_paid)
is untouched. -/
theorem C10_grant_key_mismatch (s : Store) (uname : String) (info : UserRec)
    (w : String) (now : Nat)
    (hat : startsWithAt uname = false) (haln : pyIsAlnum uname = true)
    (hrec : getU s.users uname = some info)
    (hfresh : getU s.users (String.mk ('@' :: uname.toList)) = none) :
    grantKey uname = String.mk ('@' :: uname.toList)
  ∧ getU (grant_access_to s uname w now).users uname = some info
  ∧ getU (grant_access_to s uname w now).users
        (String.mk ('@' :: uname.toList))
      = some { join := some now, last_paid := some now, wallet := some w,
               user_id := none } := by
  have hkey : grantKey uname = String.mk ('@' :: uname.toList) := by
    simp [grantKey, hat, haln]
  have hne : ¬ grantKey uname = uname := by
    rw [hkey]
    intro he
    rw [← he] at hat
    simp [startsWithAt] at hat
  have hsd : setdefaultU s.users (grantKey uname)
      = (s.users ++ [(grantKey uname, emptyRec)], emptyRec) := by
    rw [setdefaultU, hkey, hfresh]
  refine ⟨hkey, ?_, ?_⟩
  · simp only [grant_access_to, hsd]
    rw [getU_setKey_ne _ _ _ _ hne,
      getU_append_single_ne s.users uname (grantKey uname) emptyRec hne]
    exact hrec
  · simp only [grant_access_to, hsd]
    rw [← hkey, getU_setKey_self]
    rfl

/-- Witness for C10: the member registered under the bare key 12345 keeps an
unpaid registration record while the grant creates a fresh at-prefixed
record with no user id. -/
theorem C10_grant_key_mismatch_witness :
    grantKey "12345" = "@12345"
  ∧ getU (grant_access_to fxNumStore "12345" "W1" 60).users "12345"
      = some { join := some 5, last_paid := none, wallet := some "W1",
               user_id := some 12345 }
  ∧ getU (grant_access_to fxNumStore "12345" "W1" 60).users "@12345"
      = some { join := some 60, last_paid := some 60, wallet := some "W1",
               user_id := none } :=
  C10_grant_key_mismatch fxNumStore "12345"
    { join := some 5, last_paid := none, wallet := some "W1",
      user_id := some 12345 } "W1" 60 (by decide) (by decide) (by decide)
    (by decide)

end SLC